import Mathlib

/-!
# Verification of the Saju/Oheng calculation engine

Shallow embedding, in Lean 4, of the core pipeline of `src/saju/saju_service.py`:

* the Calendar Resolver (`_get_manse_record`),
* the Hour-Pillar Deriver (`get_time_pillar`),
* the Elemental Scorer (`calculate_oheng_score`),
* the Daily Adjustment Engine (`calculate_today_saju_iljin`),
* the Classifier (`classify_and_determine_recommendation`).

Modelling conventions:

* Python `float` values are embedded as exact rationals (`ℚ`); every
  arithmetic operation the embedded functions perform is expressible over `ℚ`.
  Python's `round(x, n)` is embedded as `round (x * 10^n) / 10^n`; the only
  place the banker's-rounding tie rule of CPython could differ from Mathlib's
  `round` is at exact half-way points, and no theorem below depends on the
  behaviour at a tie.
* `datetime.date` is embedded as `Int` (a day number): the code only ever
  compares dates, adds one day, and tests equality.
  `datetime.time` is embedded as `Nat` (minutes after midnight, < 1440);
  the comparison points used by the code (23:30, slot boundaries) fall on
  whole minutes.  `datetime.combine` becomes `day * 1440 + minutes`, and
  `Manse.seasonStartTime` is stored on the same scale.
* Python exceptions become `Except SajuError`; a distinct constructor is kept
  per exception class raised by the source (including the uncaught
  `ZeroDivisionError` alternative of built-in division).
* The SQLAlchemy session is embedded as a `List Manse`.  An in-place
  attribute assignment on an ORM-loaded row (object identity within the
  session's identity map) is embedded as replacing that row, positionally,
  in the list, so the state after `_get_manse_record` is part of its result.
* The module `saju.saju_data` (the fixed lookup tables: ten-star stem→element
  map, hidden-stem branch decomposition, hour-slot ranges, day-stem×slot
  composition, char→element map) is imported by the source but is not part of
  the repository snapshot.  The functions that consume those tables therefore
  take the table contents as explicit parameters, and concrete table values
  used by witnesses are modelled from the spec (marked as such).
-/

/-- The five elements (Oheng). -/
inductive Element : Type
  | wood
  | fire
  | earth
  | metal
  | water
deriving DecidableEq, Repr

/-- The fixed iteration order `OHENG_KOREAN_KEYS` of the source. -/
def Element.all : List Element :=
  [Element.wood, Element.fire, Element.earth, Element.metal, Element.water]

/-- The Korean key naming an element, as in `OHENG_KOREAN_KEYS`. -/
def Element.koreanKey : Element → String
  | Element.wood => "목(木)"
  | Element.fire => "화(火)"
  | Element.earth => "토(土)"
  | Element.metal => "금(金)"
  | Element.water => "수(水)"

/-- The membership test `kor_name in scores`: a string is a key of the score
dictionary exactly when it is one of the five Korean element keys. -/
def elementOfName (s : String) : Option Element :=
  Element.all.find? (fun e => e.koreanKey == s)

/-- A five-element score dictionary (`{"목(木)": …, …}`), one rational per
element, in the source's fixed key order. -/
structure ElementMap where
  wood : ℚ
  fire : ℚ
  earth : ℚ
  metal : ℚ
  water : ℚ
deriving DecidableEq, Repr

namespace ElementMap

/-- Read the entry of one element. -/
def get (s : ElementMap) : Element → ℚ
  | Element.wood => s.wood
  | Element.fire => s.fire
  | Element.earth => s.earth
  | Element.metal => s.metal
  | Element.water => s.water

/-- The update `scores[kor_name] += v` for the element named `kor_name`. -/
def add (s : ElementMap) (e : Element) (v : ℚ) : ElementMap :=
  match e with
  | Element.wood => { s with wood := s.wood + v }
  | Element.fire => { s with fire := s.fire + v }
  | Element.earth => { s with earth := s.earth + v }
  | Element.metal => { s with metal := s.metal + v }
  | Element.water => { s with water := s.water + v }

/-- The total `sum(scores.values())`. -/
def total (s : ElementMap) : ℚ :=
  s.wood + s.fire + s.earth + s.metal + s.water

/-- The dictionary comprehension `{k: f(v) for k, v in scores.items()}`. -/
def mapQ (f : ℚ → ℚ) (s : ElementMap) : ElementMap :=
  ⟨f s.wood, f s.fire, f s.earth, f s.metal, f s.water⟩

/-- The all-zero dictionary `{v: 0.0 for v in OHENG_KOREAN_KEYS}`. -/
def zero : ElementMap := ⟨0, 0, 0, 0, 0⟩

end ElementMap

/-- The exception classes the embedded functions can raise
(`core.exceptions` plus Python's built-in `ZeroDivisionError`). -/
inductive SajuError : Type
  | badRequest
  | notFound
  | internalServerError
  | zeroDivision
deriving DecidableEq, Repr

instance {e a : Type} [DecidableEq e] [DecidableEq a] : DecidableEq (Except e a) := fun x y =>
  match x, y with
  | Except.ok v, Except.ok w =>
    match decEq v w with
    | isTrue h => isTrue (by rw [h])
    | isFalse h => isFalse (by intro hc; cases hc; exact h rfl)
  | Except.error v, Except.error w =>
    match decEq v w with
    | isTrue h => isTrue (by rw [h])
    | isFalse h => isFalse (by intro hc; cases hc; exact h rfl)
  | Except.ok _, Except.error _ => isFalse (by intro hc; cases hc)
  | Except.error _, Except.ok _ => isFalse (by intro hc; cases hc)

/-- A row of the `manses` table (`core.models.Manse`).  Dates are day
numbers; `seasonStartTime` is minutes on the combined `day * 1440 + minute`
scale. -/
structure Manse where
  solarDate : Int
  lunarDate : Int
  seasonStartTime : Option Int
  leapMonth : Bool
  yearSky : String
  yearGround : String
  monthSky : String
  monthGround : String
  daySky : String
  dayGround : String
deriving DecidableEq, Repr

/-- Python's `str.startswith`, structurally on the character lists. -/
def strStartsWith (s pre : String) : Bool := pre.data.isPrefixOf s.data

/-- The boundary `time(23, 30)` in minutes after midnight. -/
def lateNightBoundary : Nat := 23 * 60 + 30

/-- Step 1 of `_get_manse_record`: the midnight (자시) rule.  If the birth
time is known and is at or after 23:30, the lookup date advances one day. -/
def midnightSearchDate (birth_date : Int) (birth_time : Option Nat) : Int :=
  match birth_time with
  | some t => if lateNightBoundary ≤ t then birth_date + 1 else birth_date
  | none => birth_date

/-- Step 2 of `_get_manse_record`: which rows the query filters on.
`none` is the `else` branch that raises `BadRequestException`. -/
def manseSearchPred (search_date : Int) (birth_calendar : String) :
    Option (Manse → Bool) :=
  if birth_calendar == "solar" then
    some (fun r => r.solarDate == search_date)
  else if strStartsWith birth_calendar "lunar" then
    some (fun r =>
      r.lunarDate == search_date && (r.leapMonth == (birth_calendar == "lunar_leap")))
  else
    none

/-- The call `.first()` on a filtered query, keeping the position of the row inside
the session (object identity of the ORM instance). -/
def findFirstWithIdx (p : Manse → Bool) : List Manse → Option (Nat × Manse)
  | [] => none
  | r :: rs =>
    if p r then some (0, r)
    else
      match findFirstWithIdx p rs with
      | none => none
      | some (i, x) => some (i + 1, x)

/-- One step of a running maximum over `solarDate` (the first row wins a
tie, matching `ORDER BY solarDate DESC ... first()` over distinct dates). -/
def maxSolarStep (acc : Option Manse) (r : Manse) : Option Manse :=
  match acc with
  | none => some r
  | some b => if b.solarDate < r.solarDate then some r else some b

/-- The query `filter(Manse.solarDate < d).order_by(desc(solarDate)).first()`:
a row of maximal `solarDate` among those strictly before `d` (the first such
row when several share the maximal date). -/
def previousRecord (db : List Manse) (d : Int) : Option Manse :=
  (db.filter (fun r => decide (r.solarDate < d))).foldl maxSolarStep none

/-- The resolver `_get_manse_record`.  Returns the resolved record together with the
session state after the call: the solar-term correction assigns new
year/month pillars to the ORM row itself, so the stored row changes in
place. -/
def getManseRecord (db : List Manse) (birth_date : Int) (birth_time : Option Nat)
    (birth_calendar : String) : Except SajuError (Manse × List Manse) :=
  match manseSearchPred (midnightSearchDate birth_date birth_time) birth_calendar with
  | none => Except.error SajuError.badRequest
  | some p =>
    match findFirstWithIdx p db with
    | none => Except.error SajuError.notFound
    | some (i, r) =>
      match r.seasonStartTime, birth_time with
      | some s, some t =>
        if birth_date * 1440 + (t : Int) < s then
          match previousRecord db r.solarDate with
          | some prev =>
            let corrected : Manse :=
              { r with
                yearSky := prev.yearSky
                yearGround := prev.yearGround
                monthSky := prev.monthSky
                monthGround := prev.monthGround }
            Except.ok (corrected, db.set i corrected)
          | none => Except.ok (r, db)
        else Except.ok (r, db)
      | _, _ => Except.ok (r, db)

/-! ## Hour-Pillar Deriver (`get_time_pillar`) -/

/-- The loop over `get_time_ju_data().items()`: entries `(index, start, end)`
in insertion order, times in minutes.  A wrap-around slot (`start > end`,
the 자시 slot 23:30–01:29) is tested with the disjunctive membership test,
every other slot with the closed-range test. -/
def findTimeIndex (bt : Nat) : List (Nat × Nat × Nat) → Option Nat
  | [] => none
  | (idx, s, e) :: rest =>
    if e < s then
      if s ≤ bt || bt ≤ e then some idx else findTimeIndex bt rest
    else
      if s ≤ bt && bt ≤ e then some idx else findTimeIndex bt rest

/-- The deriver `get_time_pillar`.  The two lookup tables of the absent `saju_data`
module are passed in: `timeJuData` is the slot-range table, `timeJuData2`
the (day-stem, slot-index) → (hour-stem, hour-branch) composition table.
The result `(none, none)` is the `{'time_sky': None, 'time_ground': None}`
sentinel. -/
def get_time_pillar (timeJuData : List (Nat × Nat × Nat))
    (timeJuData2 : String → Nat → Option (String × String))
    (day_sky : String) (birth_time : Option Nat) :
    Option String × Option String :=
  match birth_time with
  | none => (none, none)
  | some bt =>
    match findTimeIndex bt timeJuData with
    | none => (none, none)
    | some idx =>
      match timeJuData2 day_sky idx with
      | none => (none, none)
      | some pd => (some pd.1, some pd.2)

/-! ## Elemental Scorer (`calculate_oheng_score`) -/

/-- One hidden-stem (지장간) sub-component of a branch: its element name
(`fiveCircle`) and relative rate.  The list held by the table below stands
for `[v for v in jijangan_data[char].values() if v]`, the truthy entries in
order. -/
structure JjContent where
  fiveCircle : String
  rate : ℚ
deriving DecidableEq, Repr

/-- The eight pillar character slots (`saju_pillars` in the source).
`none` stands for the Python `None` as well as for the empty string — the
source only ever tests these characters for truthiness or uses them as
lookup keys, and `""` is falsy and is not a key of any character table. -/
structure PillarSet where
  year_sky : Option String
  month_sky : Option String
  day_sky : Option String
  time_sky : Option String
  year_ground : Option String
  month_ground : Option String
  day_ground : Option String
  time_ground : Option String
deriving DecidableEq, Repr

/-- The constant `TOTAL_SCORE * 0.3 / 4.0`: the per-stem score, 7.5 points. -/
def skyBaseScore : ℚ := 100 * (3 / 10) / 4

/-- The constant `TOTAL_SCORE * 0.7 / 4.0`: the per-branch base score, 17.5 points. -/
def groundBaseScore : ℚ := 100 * (7 / 10) / 4

/-- The constant `GROUND_SCORE_TOTAL * MONTH_BONUS`: the month-branch bonus, 21 points. -/
def monthBonusScore : ℚ := (100 * (7 / 10)) * (3 / 10)

/-- One iteration of the stem loop: if the slot holds a character, its
ten-star entry exists, and the entry's element name is a score key, add the
per-stem score to that element.  `tenStarData` is `ten_star_data`, already
projected to the element name `info[1]` of each entry. -/
def skyStep (tenStarData : String → Option String) (s : ElementMap)
    (c : Option String) : ElementMap :=
  match c with
  | none => s
  | some ch =>
    match tenStarData ch with
    | none => s
    | some korName =>
      match elementOfName korName with
      | some e => s.add e skyBaseScore
      | none => s

/-- One iteration of the branch loop body over the branch's hidden-stem
contents: each content whose element name is a score key adds
`weight * rate / totalRate` when the branch's total rate is positive. -/
def groundContentsFold (weight totalRate : ℚ) (s : ElementMap)
    (contents : List JjContent) : ElementMap :=
  contents.foldl
    (fun acc ct =>
      match elementOfName ct.fiveCircle with
      | some e =>
        if 0 < totalRate then acc.add e (weight * (ct.rate / totalRate)) else acc
      | none => acc)
    s

/-- One iteration of the branch loop: skip absent characters and characters
outside the hidden-stem table; the month branch carries the bonus weight. -/
def groundStep (jijanganData : String → Option (List JjContent))
    (isMonth : Bool) (s : ElementMap) (c : Option String) : ElementMap :=
  match c with
  | none => s
  | some ch =>
    match jijanganData ch with
    | none => s
    | some contents =>
      let weight := groundBaseScore + (if isMonth then monthBonusScore else 0)
      let totalRate := (contents.map (fun ct => ct.rate)).sum
      groundContentsFold weight totalRate s contents

/-- The accumulation part of `calculate_oheng_score`: the raw scores before
the percentage conversion.  `tenStar` is `get_ten_star()` (day-stem →
per-character element name, `none` when `.get(day_sky)` is falsy);
`jijangan?` is `get_jijangan()` (`none` when the whole table is falsy). -/
def rawOhengScores (tenStar : String → Option (String → Option String))
    (jijangan? : Option (String → Option (List JjContent)))
    (p : PillarSet) : Except SajuError ElementMap :=
  match p.day_sky with
  | none => Except.error SajuError.internalServerError
  | some ds =>
    match tenStar ds, jijangan? with
    | none, _ => Except.error SajuError.internalServerError
    | some _, none => Except.error SajuError.internalServerError
    | some tenStarData, some jijanganData =>
      let s0 := [p.year_sky, p.month_sky, p.day_sky, p.time_sky].foldl
        (skyStep tenStarData) ElementMap.zero
      let s1 := groundStep jijanganData false s0 p.year_ground
      let s2 := groundStep jijanganData true s1 p.month_ground
      let s3 := groundStep jijanganData false s2 p.day_ground
      let s4 := groundStep jijanganData false s3 p.time_ground
      Except.ok s4

/-- Python's `round(x, 1)` over exact rationals. -/
def roundTo1 (x : ℚ) : ℚ := (round (x * 10) : ℤ) / 10

/-- Python's `round(x, 2)` over exact rationals. -/
def roundTo2 (x : ℚ) : ℚ := (round (x * 100) : ℤ) / 100

/-- The final percentage conversion of `calculate_oheng_score`: an all-zero
sum returns the scores untouched, otherwise each score becomes its rounded
share of 100. -/
def normalizeOhengScores (s : ElementMap) : ElementMap :=
  if s.total = 0 then s
  else s.mapQ (fun v => roundTo1 (v / s.total * 100))

/-- The scorer `calculate_oheng_score`: raw accumulation followed by normalization. -/
def calculate_oheng_score (tenStar : String → Option (String → Option String))
    (jijangan? : Option (String → Option (List JjContent)))
    (p : PillarSet) : Except SajuError ElementMap :=
  (rawOhengScores tenStar jijangan? p).map normalizeOhengScores

/-! ## Daily Adjustment Engine (`calculate_today_saju_iljin`) -/

/-- The five nullable score columns plus the stored day-stem of a `User`
row, as read by `calculate_today_saju_iljin`. -/
structure UserOheng where
  oheng_wood : Option ℚ
  oheng_fire : Option ℚ
  oheng_earth : Option ℚ
  oheng_metal : Option ℚ
  oheng_water : Option ℚ
  day_sky : Option String
deriving DecidableEq, Repr

/-- The reads `float(getattr(user, col) or 0.0)` for each column, in key order. -/
def UserOheng.currentScores (u : UserOheng) : ElementMap :=
  ⟨u.oheng_wood.getD 0, u.oheng_fire.getD 0, u.oheng_earth.getD 0,
   u.oheng_metal.getD 0, u.oheng_water.getD 0⟩

/-- One iteration of the weight loop: look the character up in
`get_five_circle_from_char` and, when the result is a score key, add the
weight to that element. -/
def boostForChar (fiveCircleFromChar : String → Option String)
    (s : ElementMap) (c : String) (w : ℚ) : ElementMap :=
  match fiveCircleFromChar c with
  | none => s
  | some korName =>
    match elementOfName korName with
    | some e => s.add e w
    | none => s

/-- The constants `WEIGHTS = \x7b"sky": 20.0, "ground": 20.0\x7d` of the source. -/
def dailySkyWeight : ℚ := 20
/-- Weight added for today's day-branch. -/
def dailyGroundWeight : ℚ := 20

/-- The adjuster `calculate_today_saju_iljin`.  Here `fiveCircleFromChar` stands for
`saju_data.get_five_circle_from_char` (module absent from the snapshot);
`db` and `today` replace the query for today's `Manse` row.  The final
dictionary comprehension divides by `sum(current_scores.values())` without
any zero test, so a zero total is the built-in `ZeroDivisionError`. -/
def calculate_today_saju_iljin (fiveCircleFromChar : String → Option String)
    (u : UserOheng) (db : List Manse) (today : Int) :
    Except SajuError ElementMap :=
  if u.oheng_wood = none ∧ u.oheng_fire = none ∧ u.oheng_earth = none ∧
      u.oheng_metal = none ∧ u.oheng_water = none then
    Except.error SajuError.internalServerError
  else
    match u.day_sky with
    | none => Except.error SajuError.internalServerError
    | some _ =>
      match db.find? (fun r => r.solarDate == today) with
      | none => Except.error SajuError.notFound
      | some todayManse =>
        let s0 := u.currentScores
        let s1 := boostForChar fiveCircleFromChar s0 todayManse.daySky dailySkyWeight
        let s2 := boostForChar fiveCircleFromChar s1 todayManse.dayGround dailyGroundWeight
        if s2.total = 0 then Except.error SajuError.zeroDivision
        else Except.ok (s2.mapQ (fun v => roundTo2 (v / s2.total * 100)))

/-! ## Classifier (`classify_and_determine_recommendation`) -/

/-- The three profile categories: 무형 (deficient), 균형형 (balanced),
치우침형 (skewed). -/
inductive OhengType : Type
  | muhyeong
  | gyunhyeong
  | chiuchim
deriving DecidableEq, Repr

/-- The constant `THRESHOLD_MUHANG`. -/
def thresholdMuhang : ℚ := 5
/-- The constant `THRESHOLD_MAX_MIN_DIFF`. -/
def thresholdMaxMinDiff : ℚ := 10

/-- The minimum `min(vals)` over the five scores in key order. -/
def profileMin (s : ElementMap) : ℚ :=
  min s.wood (min s.fire (min s.earth (min s.metal s.water)))

/-- The maximum `max(vals)` over the five scores in key order. -/
def profileMax (s : ElementMap) : ℚ :=
  max s.wood (max s.fire (max s.earth (max s.metal s.water)))

/-- The classifier's output: category tag plus the tied-minimum and
tied-maximum element lists, in key order. -/
structure OhengClassification where
  oheng_type : OhengType
  primary_supplement_oheng : List Element
  secondary_control_oheng : List Element
deriving DecidableEq, Repr

/-- The classifier `classify_and_determine_recommendation`. -/
def classify_and_determine_recommendation (s : ElementMap) : OhengClassification :=
  let min_val := profileMin s
  let max_val := profileMax s
  let max_diff := max_val - min_val
  let t :=
    if min_val < thresholdMuhang then OhengType.muhyeong
    else if max_diff ≤ thresholdMaxMinDiff then OhengType.gyunhyeong
    else OhengType.chiuchim
  { oheng_type := t
    primary_supplement_oheng := Element.all.filter (fun e => s.get e = min_val)
    secondary_control_oheng := Element.all.filter (fun e => s.get e = max_val) }

/-! ## Spec-modelled lookup data -/

/-- Modelled from the spec: `saju_data.get_five_circle_from_char` (the
module `saju.saju_data` is not part of the repository snapshot).  Per the
spec's glossary and §4.4, every stem and every branch maps to its single
governing element ("branches map via their primary element"); a character
outside that fixed ontology has no governing element. -/
def get_five_circle_from_char (c : String) : Option String :=
  [("갑", "목(木)"), ("을", "목(木)"), ("병", "화(火)"), ("정", "화(火)"),
   ("무", "토(土)"), ("기", "토(土)"), ("경", "금(金)"), ("신", "금(金)"),
   ("임", "수(水)"), ("계", "수(水)"),
   ("자", "수(水)"), ("축", "토(土)"), ("인", "목(木)"), ("묘", "목(木)"),
   ("진", "토(土)"), ("사", "화(火)"), ("오", "화(火)"), ("미", "토(土)"),
   ("유", "금(金)"), ("술", "토(土)"), ("해", "수(水)")].lookup c

/-! ## Small lemmas about the calendar resolver -/

/-- A found row satisfies the query predicate, sits at its reported
position, and belongs to the session. -/
theorem findFirstWithIdx_spec (p : Manse → Bool) :
    ∀ (db : List Manse) (i : Nat) (r : Manse),
      findFirstWithIdx p db = some (i, r) →
      p r = true ∧ db.get? i = some r ∧ r ∈ db := by
  intro db
  induction db with
  | nil => intro i r h; simp [findFirstWithIdx] at h
  | cons a l ih =>
    intro i r h
    rw [findFirstWithIdx] at h
    by_cases ha : p a = true
    · rw [if_pos ha] at h
      simp only [Option.some.injEq, Prod.mk.injEq] at h
      obtain ⟨hi, hr⟩ := h
      subst hi; subst hr
      exact ⟨ha, rfl, List.mem_cons_self a l⟩
    · rw [if_neg ha] at h
      cases hrec : findFirstWithIdx p l with
      | none => rw [hrec] at h; simp at h
      | some jr =>
        obtain ⟨j, r'⟩ := jr
        rw [hrec] at h
        simp only [Option.some.injEq, Prod.mk.injEq] at h
        obtain ⟨hi, hr⟩ := h
        obtain ⟨hp', hg, hm⟩ := ih j r' hrec
        subst hi; subst hr
        exact ⟨hp', by simpa using hg, List.mem_cons_of_mem a hm⟩

/-- The query of a recognized tag is `none` exactly for the unrecognized
calendar tags: not `"solar"` and not prefixed by `"lunar"`. -/
theorem manseSearchPred_eq_none_iff (sd : Int) (cal : String) :
    manseSearchPred sd cal = none ↔
      (cal ≠ "solar" ∧ strStartsWith cal "lunar" = false) := by
  unfold manseSearchPred
  split_ifs with h1 h2
  · simp at h1
    simp [h1]
  · constructor
    · intro h; cases h
    · intro h
      rw [h.2] at h2
      cases h2
  · constructor
    · intro _
      refine ⟨?_, ?_⟩
      · intro hc; rw [hc] at h1; simp at h1
      · cases hs : strStartsWith cal "lunar"
        · rfl
        · cases h2 hs
    · intro _; rfl

/-- When the tag is recognized, the resolver never raises
`BadRequestException`: it either finds a row or raises the not-found
error. -/
theorem getManseRecord_ne_badRequest (db : List Manse) (bd : Int)
    (bt : Option Nat) (cal : String) (p : Manse → Bool)
    (hp : manseSearchPred (midnightSearchDate bd bt) cal = some p) :
    getManseRecord db bd bt cal ≠ Except.error SajuError.badRequest := by
  unfold getManseRecord
  rw [hp]
  split
  · rename_i heq
    simp at heq
  · split
    · simp
    · split
      · split
        · split <;> simp
        · simp
      · simp

/-! ## Concrete fixtures used by counterexamples and witnesses -/

/-- A reference row one solar day before `fixtureRowB`. -/
def fixtureRowA : Manse :=
  { solarDate := 99, lunarDate := 98, seasonStartTime := none, leapMonth := false
    yearSky := "갑", yearGround := "자", monthSky := "병", monthGround := "인"
    daySky := "무", dayGround := "진" }

/-- A reference row whose season-start instant is 11:40 on its own day. -/
def fixtureRowB : Manse :=
  { solarDate := 100, lunarDate := 99, seasonStartTime := some (100 * 1440 + 700)
    leapMonth := false
    yearSky := "을", yearGround := "축", monthSky := "정", monthGround := "묘"
    daySky := "기", dayGround := "사" }

/-- Row `fixtureRowB` after the solar-term correction assigned it
`fixtureRowA`'s year and month pillars. -/
def fixtureRowBCorrected : Manse :=
  { fixtureRowB with
    yearSky := fixtureRowA.yearSky, yearGround := fixtureRowA.yearGround
    monthSky := fixtureRowA.monthSky, monthGround := fixtureRowA.monthGround }

/-- A lunar reference row used by the calendar-tag counterexample. -/
def fixtureLunarRow : Manse :=
  { solarDate := 42, lunarDate := 5, seasonStartTime := none, leapMonth := false
    yearSky := "갑", yearGround := "자", monthSky := "병", monthGround := "인"
    daySky := "무", dayGround := "진" }

/-- C1 -- The claim predicts that the all-zero profile is classified as
"balanced"; on the code, `min = 0 < 5` fires the deficient (무형) rule
first, so the all-zero profile is NOT classified as balanced (균형형). -/
theorem classify_allzero_not_balanced :
    (classify_and_determine_recommendation ElementMap.zero).oheng_type ≠
      OhengType.gyunhyeong := by
  norm_num [classify_and_determine_recommendation, profileMin, profileMax,
    ElementMap.zero, thresholdMuhang]
  decide

/-- C1 (amended) -- For every five-value profile the classifier totally
computes one of the three categories (deficient / balanced / skewed) —
never an exception — and the degenerate all-zero profile, whose spread
`max - min` is 0, is classified as deficient (무형), because the
`min < 5` deficiency rule is tested before the spread rule. -/
theorem classify_total_and_allzero_deficient (s : ElementMap) :
    ((classify_and_determine_recommendation s).oheng_type = OhengType.muhyeong ∨
      (classify_and_determine_recommendation s).oheng_type = OhengType.gyunhyeong ∨
      (classify_and_determine_recommendation s).oheng_type = OhengType.chiuchim) ∧
    (classify_and_determine_recommendation ElementMap.zero).oheng_type =
      OhengType.muhyeong ∧
    profileMax ElementMap.zero - profileMin ElementMap.zero = 0 := by
  refine ⟨?_,
    by norm_num [classify_and_determine_recommendation, profileMin, profileMax,
      ElementMap.zero, thresholdMuhang],
    by norm_num [profileMin, profileMax, ElementMap.zero]⟩
  by_cases h1 : profileMin s < thresholdMuhang
  · left
    simp [classify_and_determine_recommendation, h1]
  · by_cases h2 : profileMax s - profileMin s ≤ thresholdMaxMinDiff
    · right; left
      simp [classify_and_determine_recommendation, h1, h2]
    · right; right
      simp [classify_and_determine_recommendation, h1, h2]

/-- C4 -- The claim predicts that every tag outside
{solar, lunar, lunar-leap} is rejected with `InvalidInputError`; on the
code, the tag "lunarx" (outside the recognized set) is accepted and
resolves a (non-leap) lunar lookup successfully. -/
theorem unrecognized_lunar_prefix_tag_accepted :
    getManseRecord [fixtureLunarRow] 5 none "lunarx" =
      Except.ok (fixtureLunarRow, [fixtureLunarRow]) := by
  decide

/-- C4 (amended) -- The resolver fails with `InvalidInputError`
(`BadRequestException`) exactly for the tags that are neither `"solar"`
nor prefixed by `"lunar"`: `"solar"` selects the solar lookup, and every
string starting with `"lunar"` is accepted as a lunar lookup (the leap
flag being set only by the exact tag `"lunar_leap"`). -/
theorem badRequest_iff_tag_unrecognized (db : List Manse) (bd : Int)
    (bt : Option Nat) (cal : String) :
    getManseRecord db bd bt cal = Except.error SajuError.badRequest ↔
      (cal ≠ "solar" ∧ strStartsWith cal "lunar" = false) := by
  constructor
  · intro h
    cases hp : manseSearchPred (midnightSearchDate bd bt) cal with
    | none => exact (manseSearchPred_eq_none_iff (midnightSearchDate bd bt) cal).mp hp
    | some p => exact absurd h (getManseRecord_ne_badRequest db bd bt cal p hp)
  · intro h
    have hp : manseSearchPred (midnightSearchDate bd bt) cal = none :=
      (manseSearchPred_eq_none_iff (midnightSearchDate bd bt) cal).mpr h
    unfold getManseRecord
    rw [hp]

/-- The running maximum is `none` only over an empty query result. -/
theorem maxSolarFold_eq_none_iff :
    ∀ (l : List Manse) (acc : Option Manse),
      l.foldl maxSolarStep acc = none ↔ (acc = none ∧ l = []) := by
  intro l
  induction l with
  | nil => intro acc; simp
  | cons a t ih =>
    intro acc
    rw [List.foldl_cons, ih]
    constructor
    · rintro ⟨h1, -⟩
      exfalso
      cases acc with
      | none => simp [maxSolarStep] at h1
      | some b =>
        by_cases hlt : b.solarDate < a.solarDate <;> simp [maxSolarStep, hlt] at h1
    · rintro ⟨-, h2⟩
      cases h2

/-- One maximum step always yields a row, at least as late as both the
new row and the accumulated row. -/
theorem maxSolarStep_isSome (acc : Option Manse) (r : Manse) :
    ∃ c, maxSolarStep acc r = some c ∧ r.solarDate ≤ c.solarDate ∧
      (∀ b, acc = some b → b.solarDate ≤ c.solarDate) := by
  cases acc with
  | none =>
    refine ⟨r, rfl, le_refl _, ?_⟩
    intro b hb
    cases hb
  | some b =>
    by_cases hlt : b.solarDate < r.solarDate
    · refine ⟨r, by simp [maxSolarStep, hlt], le_refl _, ?_⟩
      intro b' hb'
      cases hb'
      exact le_of_lt hlt
    · refine ⟨b, by simp [maxSolarStep, hlt], le_of_not_lt hlt, ?_⟩
      intro b' hb'
      cases hb'
      exact le_refl _

/-- A row returned by the running maximum comes from the accumulator or the
list. -/
theorem maxSolarFold_mem :
    ∀ (l : List Manse) (acc : Option Manse) (p : Manse),
      l.foldl maxSolarStep acc = some p → acc = some p ∨ p ∈ l := by
  intro l
  induction l with
  | nil => intro acc p h; exact Or.inl h
  | cons a t ih =>
    intro acc p h
    rw [List.foldl_cons] at h
    rcases ih _ p h with h1 | h1
    · cases acc with
      | none =>
        have ha : a = p := by simpa [maxSolarStep] using h1
        exact Or.inr (ha ▸ List.mem_cons_self a t)
      | some b =>
        by_cases hlt : b.solarDate < a.solarDate
        · have ha : a = p := by simpa [maxSolarStep, hlt] using h1
          exact Or.inr (ha ▸ List.mem_cons_self a t)
        · have hb : b = p := by simpa [maxSolarStep, hlt] using h1
          exact Or.inl (by rw [hb])
    · exact Or.inr (List.mem_cons_of_mem a h1)

/-- The row returned by the running maximum dominates every list element
and the accumulator. -/
theorem maxSolarFold_ge :
    ∀ (l : List Manse) (acc : Option Manse) (p : Manse),
      l.foldl maxSolarStep acc = some p →
      (∀ q ∈ l, q.solarDate ≤ p.solarDate) ∧
      (∀ b, acc = some b → b.solarDate ≤ p.solarDate) := by
  intro l
  induction l with
  | nil =>
    intro acc p h
    refine ⟨by simp, ?_⟩
    intro b hb
    rw [List.foldl_nil] at h
    rw [hb] at h
    cases h
    exact le_refl _
  | cons a t ih =>
    intro acc p h
    rw [List.foldl_cons] at h
    obtain ⟨c, hc, hac, hbc⟩ := maxSolarStep_isSome acc a
    rw [hc] at h
    obtain ⟨ht, hacc⟩ := ih (some c) p h
    have hcp : c.solarDate ≤ p.solarDate := hacc c rfl
    refine ⟨?_, ?_⟩
    · intro q hq
      rcases List.mem_cons.mp hq with rfl | hq
      · exact le_trans hac hcp
      · exact ht q hq
    · intro b hb
      exact le_trans (hbc b hb) hcp

/-- Full characterization of `previousRecord`: a returned row is a stored
row strictly earlier than `d` and no stored row strictly earlier than `d`
is later than it; `none` means no strictly earlier stored row exists. -/
theorem previousRecord_spec (db : List Manse) (d : Int) :
    (∀ prev, previousRecord db d = some prev →
      prev ∈ db ∧ prev.solarDate < d ∧
      ∀ q ∈ db, q.solarDate < d → q.solarDate ≤ prev.solarDate) ∧
    (previousRecord db d = none → ∀ q ∈ db, ¬ q.solarDate < d) := by
  constructor
  · intro prev h
    unfold previousRecord at h
    have hmem := maxSolarFold_mem _ none prev h
    have hge := maxSolarFold_ge _ none prev h
    rcases hmem with h1 | h1
    · cases h1
    · have h2 := List.mem_filter.mp h1
      refine ⟨h2.1, by simpa using h2.2, ?_⟩
      intro q hq hqd
      exact hge.1 q (List.mem_filter.mpr ⟨hq, by simpa using hqd⟩)
  · intro h q hq hqd
    unfold previousRecord at h
    have h2 := (maxSolarFold_eq_none_iff _ none).mp h
    have : q ∈ db.filter (fun r => decide (r.solarDate < d)) :=
      List.mem_filter.mpr ⟨hq, by simpa using hqd⟩
    rw [h2.2] at this
    cases this

/-- C2 -- The claim predicts the stored calendar rows are never mutated by
the resolver; on the code, a birth before the season-start instant makes
the resolver assign the previous row's year/month pillars onto the stored
ORM row itself, so after the call the session's row set has changed (and
`calculate_saju_and_save`'s later `db.commit()` persists that change). -/
theorem resolver_mutates_stored_reference_row :
    getManseRecord [fixtureRowA, fixtureRowB] 100 (some 600) "solar" =
      Except.ok (fixtureRowBCorrected, [fixtureRowA, fixtureRowBCorrected]) ∧
    [fixtureRowA, fixtureRowBCorrected] ≠ [fixtureRowA, fixtureRowB] ∧
    fixtureRowBCorrected.yearSky ≠ fixtureRowB.yearSky := by
  refine ⟨by decide, by decide, by decide⟩

/-- A user row whose five element scores are all stored (all `0.0`) and
whose day-stem is stored, as the Daily Adjustment Engine reads it. -/
def fixtureZeroUser : UserOheng :=
  { oheng_wood := some 0, oheng_fire := some 0, oheng_earth := some 0
    oheng_metal := some 0, oheng_water := some 0, day_sky := some "갑" }

/-- A degenerate today-row whose day-stem and day-branch characters map to
no element. -/
def fixtureUnmappedManse : Manse :=
  { solarDate := 0, lunarDate := 0, seasonStartTime := none, leapMonth := false
    yearSky := "을", yearGround := "축", monthSky := "정", monthGround := "묘"
    daySky := "X", dayGround := "Y" }

/-- C10 -- An input satisfying the Daily Adjustment Engine's precondition
(all five scores stored, as `0.0`) together with a today-row whose
day-stem/day-branch map to no element reaches the final division with a
zero total: a `ZeroDivisionError`.  The Elemental Scorer's normalization,
by contrast, guards the zero total and returns the scores unchanged. -/
theorem daily_adjust_divides_by_zero_total :
    calculate_today_saju_iljin get_five_circle_from_char fixtureZeroUser
        [fixtureUnmappedManse] 0 = Except.error SajuError.zeroDivision ∧
    normalizeOhengScores ElementMap.zero = ElementMap.zero := by
  constructor
  · have hx : get_five_circle_from_char "X" = none := by decide
    have hy : get_five_circle_from_char "Y" = none := by decide
    have hf : List.find? (fun r => r.solarDate == (0 : Int)) [fixtureUnmappedManse] =
        some fixtureUnmappedManse := by decide
    norm_num [calculate_today_saju_iljin, fixtureZeroUser, fixtureUnmappedManse,
      UserOheng.currentScores, boostForChar, hx, hy, hf, ElementMap.total]
    intro h
    exact absurd h (by simp)
  · norm_num [normalizeOhengScores, ElementMap.total, ElementMap.zero]

/-- C8 -- The midnight rule: a known birth time at or after 23:30 advances
the lookup date by one day (so a solar resolution returns a record whose
solar date is D+1), a known time before 23:30 and an unknown time use the
birth date itself. -/
theorem midnight_rule_lookup_date :
    (∀ (bd : Int) (t : Nat), lateNightBoundary ≤ t →
      midnightSearchDate bd (some t) = bd + 1) ∧
    (∀ (bd : Int) (t : Nat), t < lateNightBoundary →
      midnightSearchDate bd (some t) = bd) ∧
    (∀ bd : Int, midnightSearchDate bd none = bd) ∧
    (∀ (db db' : List Manse) (bd : Int) (t : Nat) (rec : Manse),
      lateNightBoundary ≤ t →
      getManseRecord db bd (some t) "solar" = Except.ok (rec, db') →
      rec.solarDate = bd + 1) := by
  refine ⟨?_, ?_, ?_, ?_⟩
  · intro bd t h
    simp [midnightSearchDate, h]
  · intro bd t h
    simp [midnightSearchDate, Nat.not_le.mpr h]
  · intro bd
    rfl
  · intro db db' bd t rec h hok
    have hsd : midnightSearchDate bd (some t) = bd + 1 := by
      simp [midnightSearchDate, h]
    have hps : manseSearchPred (midnightSearchDate bd (some t)) "solar" =
        some (fun r => r.solarDate == midnightSearchDate bd (some t)) := rfl
    unfold getManseRecord at hok
    rw [hps] at hok
    dsimp only at hok
    cases hf : findFirstWithIdx (fun r => r.solarDate == midnightSearchDate bd (some t)) db with
    | none =>
      rw [hf] at hok
      cases hok
    | some ir =>
      obtain ⟨i, r0⟩ := ir
      rw [hf] at hok
      dsimp only at hok
      have hr0 : r0.solarDate = bd + 1 := by
        have hp := (findFirstWithIdx_spec _ db i r0 hf).1
        simp only [beq_iff_eq] at hp
        rw [hp, hsd]
      cases hs : r0.seasonStartTime with
      | none =>
        rw [hs] at hok
        simp only [] at hok
        cases hok
        exact hr0
      | some s0 =>
        rw [hs] at hok
        simp only [] at hok
        by_cases hlt : bd * 1440 + (t : Int) < s0
        · rw [if_pos hlt] at hok
          cases hprev : previousRecord db r0.solarDate with
          | some prev =>
            rw [hprev] at hok
            cases hok
            exact hr0
          | none =>
            rw [hprev] at hok
            cases hok
            exact hr0
        · rw [if_neg hlt] at hok
          cases hok
          exact hr0

/-- A reference row for day 101, no season-start instant. -/
def fixtureRowC : Manse :=
  { solarDate := 101, lunarDate := 100, seasonStartTime := none, leapMonth := false
    yearSky := "을", yearGround := "축", monthSky := "정", monthGround := "묘"
    daySky := "경", dayGround := "오" }

/-- C8 witness: a birth at 23:45 on day 100 resolves against the record
for day 101. -/
theorem midnight_rule_lookup_date_witness :
    fixtureRowC.solarDate = (100 : Int) + 1 :=
  midnight_rule_lookup_date.2.2.2 [fixtureRowC] [fixtureRowC]
    100 1425 fixtureRowC (by decide) (by decide)

/-- C9 -- The Hour-Pillar Deriver is total (never raises) and returns the
unknown sentinel exactly in the three soft-failure situations — birth time
absent, no two-hour slot matching, or the (day-stem, slot) pair missing
from the composition table — and the composition table's pair otherwise.
The table contents are parameters because the `saju_data` module is not in
the snapshot; the characterization holds for every table. -/
theorem time_pillar_sentinel_cases
    (timeJuData : List (Nat × Nat × Nat))
    (timeJuData2 : String → Nat → Option (String × String)) (ds : String) :
    (get_time_pillar timeJuData timeJuData2 ds none = (none, none)) ∧
    (∀ t, findTimeIndex t timeJuData = none →
      get_time_pillar timeJuData timeJuData2 ds (some t) = (none, none)) ∧
    (∀ t idx, findTimeIndex t timeJuData = some idx → timeJuData2 ds idx = none →
      get_time_pillar timeJuData timeJuData2 ds (some t) = (none, none)) ∧
    (∀ t idx a b, findTimeIndex t timeJuData = some idx →
      timeJuData2 ds idx = some (a, b) →
      get_time_pillar timeJuData timeJuData2 ds (some t) = (some a, some b)) := by
  refine ⟨rfl, ?_, ?_, ?_⟩
  · intro t h
    simp [get_time_pillar, h]
  · intro t idx h1 h2
    simp [get_time_pillar, h1, h2]
  · intro t idx a b h1 h2
    simp [get_time_pillar, h1, h2]

/-- The wrap-around hour-slot table entry (자시, 23:30–01:29), modelled
from the spec's §4.2 slot description, used to instantiate the deriver. -/
def fixtureTimeJuData : List (Nat × Nat × Nat) := [(0, 23 * 60 + 30, 89)]

/-- A one-entry composition table (day-stem 갑, slot 0 ↦ 병자), modelled
from the spec's day-stem × slot composition. -/
def fixtureTimeJuData2 (ds : String) (idx : Nat) : Option (String × String) :=
  if ds = "갑" ∧ idx = 0 then some ("병", "자") else none

/-- C9 witness: at 23:30 with day-stem 갑 the deriver returns the table's
pair; the sentinel cases are exercised with the same tables. -/
theorem time_pillar_sentinel_cases_witness :
    get_time_pillar fixtureTimeJuData fixtureTimeJuData2 "갑" (some 1410) =
      (some "병", some "자") :=
  (time_pillar_sentinel_cases fixtureTimeJuData fixtureTimeJuData2 "갑").2.2.2
    1410 0 "병" "자" (by decide) (by decide)

/-- C5 -- The solar-term correction: when the found record carries a
season-start instant, birth time is known, and the original uncorrected
birth date+time lies strictly before that instant, the returned record's
year/month pillars are those of the stored record with the largest solar
date strictly below the found record's solar date; with no such earlier
record the original year/month pillars are kept; the day pillar characters
(hence also the time pillar derived from them) are never touched. -/
theorem solar_term_correction_nearest_earlier
    (db db' : List Manse) (bd : Int) (t : Nat) (cal : String)
    (rec : Manse) (p : Manse → Bool) (i : Nat) (r : Manse) (s : Int)
    (hp : manseSearchPred (midnightSearchDate bd (some t)) cal = some p)
    (hfind : findFirstWithIdx p db = some (i, r))
    (hseason : r.seasonStartTime = some s)
    (hbefore : bd * 1440 + (t : Int) < s)
    (hok : getManseRecord db bd (some t) cal = Except.ok (rec, db')) :
    rec.daySky = r.daySky ∧ rec.dayGround = r.dayGround ∧
    (∀ prev, previousRecord db r.solarDate = some prev →
      rec.yearSky = prev.yearSky ∧ rec.yearGround = prev.yearGround ∧
      rec.monthSky = prev.monthSky ∧ rec.monthGround = prev.monthGround ∧
      prev ∈ db ∧ prev.solarDate < r.solarDate ∧
      ∀ q ∈ db, q.solarDate < r.solarDate → q.solarDate ≤ prev.solarDate) ∧
    (previousRecord db r.solarDate = none →
      rec = r ∧ ∀ q ∈ db, ¬ q.solarDate < r.solarDate) := by
  unfold getManseRecord at hok
  rw [hp] at hok
  dsimp only at hok
  rw [hfind] at hok
  dsimp only at hok
  rw [hseason] at hok
  dsimp only at hok
  rw [if_pos hbefore] at hok
  cases hprev : previousRecord db r.solarDate with
  | some prev =>
    rw [hprev] at hok
    dsimp only at hok
    injection hok with h1
    rw [Prod.mk.injEq] at h1
    obtain ⟨hrec, -⟩ := h1
    subst hrec
    refine ⟨rfl, rfl, ?_, ?_⟩
    · intro prev' hprev'
      injection hprev' with hpp
      subst hpp
      have hps := (previousRecord_spec db r.solarDate).1 prev hprev
      exact ⟨rfl, rfl, rfl, rfl, hps.1, hps.2.1, hps.2.2⟩
    · intro hnone
      cases hnone
  | none =>
    rw [hprev] at hok
    dsimp only at hok
    injection hok with h1
    rw [Prod.mk.injEq] at h1
    obtain ⟨hrec, -⟩ := h1
    subst hrec
    refine ⟨rfl, rfl, ?_, ?_⟩
    · intro prev' hprev'
      cases hprev'
    · intro _
      exact ⟨rfl, (previousRecord_spec db r.solarDate).2 hprev⟩

/-- C5 witness: with the two fixture rows and a birth before row B's
season-start instant, the returned record carries row A's year pillar and
keeps row B's day pillar. -/
theorem solar_term_correction_nearest_earlier_witness :
    fixtureRowBCorrected.yearSky = fixtureRowA.yearSky ∧
    fixtureRowBCorrected.daySky = fixtureRowB.daySky := by
  have h := solar_term_correction_nearest_earlier
    [fixtureRowA, fixtureRowB] [fixtureRowA, fixtureRowBCorrected] 100 600 "solar"
    fixtureRowBCorrected
    (fun r => r.solarDate == midnightSearchDate 100 (some 600)) 1 fixtureRowB
    (100 * 1440 + 700) rfl (by decide) rfl (by decide) (by decide)
  exact ⟨(h.2.2.1 fixtureRowA (by decide)).1, h.1⟩

/-! ## Elemental Scorer: pointwise characterization and bounds -/

/-- Reading an updated score dictionary. -/
theorem ElementMap.get_add (s : ElementMap) (e x : Element) (v : ℚ) :
    (s.add e v).get x = if x = e then s.get x + v else s.get x := by
  cases e <;> cases x <;> simp [ElementMap.add, ElementMap.get]

/-- Adding to one key adds to the dictionary total. -/
theorem ElementMap.total_add (s : ElementMap) (e : Element) (v : ℚ) :
    (s.add e v).total = s.total + v := by
  cases e <;> simp [ElementMap.add, ElementMap.total] <;> ring

/-- The zero dictionary reads 0 at every key. -/
theorem ElementMap.get_zero (x : Element) : ElementMap.zero.get x = 0 := by
  cases x <;> rfl

/-- Reading a mapped dictionary. -/
theorem ElementMap.get_mapQ (f : ℚ → ℚ) (s : ElementMap) (x : Element) :
    (s.mapQ f).get x = f (s.get x) := by
  cases x <;> rfl

/-- Following the spec's words (§4.3): each present stem contributes
exactly 7.5 points to its mapped element (no redistribution for missing
stems; a stem without a mapped element contributes nothing). -/
def specStemPoints (tenStarData : String → Option String) (c : Option String)
    (e : Element) : ℚ :=
  match c with
  | none => 0
  | some ch =>
    match (tenStarData ch).bind elementOfName with
    | some e2 => if e2 = e then 15 / 2 else 0
    | none => 0

/-- Following the spec's words (§4.3): a present branch distributes its
allotted weight — 17.5 points, plus 21 points (0.3 × 70) for the month
branch — across its sub-components in proportion to their relative rates:
component weight = branch_weight × component_rate / sum of the branch's
rates. -/
def specBranchPoints (jijanganData : String → Option (List JjContent))
    (isMonth : Bool) (c : Option String) (e : Element) : ℚ :=
  match c with
  | none => 0
  | some ch =>
    match jijanganData ch with
    | none => 0
    | some contents =>
      ((contents.filter (fun ct => elementOfName ct.fiveCircle == some e)).map
        (fun ct =>
          (35 / 2 + (if isMonth then 21 else 0)) * ct.rate /
            (contents.map (fun ct2 => ct2.rate)).sum)).sum

/-- Following the spec's words (§4.3): the raw weight model, summed over
the four stem slots and the four branch slots. -/
def specWeightScores (tenStarData : String → Option String)
    (jijanganData : String → Option (List JjContent)) (p : PillarSet)
    (e : Element) : ℚ :=
  specStemPoints tenStarData p.year_sky e +
  specStemPoints tenStarData p.month_sky e +
  specStemPoints tenStarData p.day_sky e +
  specStemPoints tenStarData p.time_sky e +
  specBranchPoints jijanganData false p.year_ground e +
  specBranchPoints jijanganData true p.month_ground e +
  specBranchPoints jijanganData false p.day_ground e +
  specBranchPoints jijanganData false p.time_ground e

/-- One stem-loop iteration adds exactly the spec's stem points. -/
theorem skyStep_get (tsd : String → Option String) (s : ElementMap)
    (c : Option String) (x : Element) :
    (skyStep tsd s c).get x = s.get x + specStemPoints tsd c x := by
  cases c with
  | none => simp [skyStep, specStemPoints]
  | some ch =>
    cases h1 : tsd ch with
    | none => simp [skyStep, specStemPoints, h1]
    | some korName =>
      cases h2 : elementOfName korName with
      | none => simp [skyStep, specStemPoints, h1, h2]
      | some e2 =>
        have hsb : skyBaseScore = 15 / 2 := by norm_num [skyBaseScore]
        simp only [skyStep, specStemPoints, h1, h2, Option.bind_some]
        rw [ElementMap.get_add]
        by_cases hx : x = e2
        · subst hx
          simp [h2, hsb]
        · simp [h2, hx, Ne.symm hx]

/-- The hidden-stem loop adds, at each key, the rate-proportional shares of
the branch weight (when the branch's total rate is positive). -/
theorem groundContentsFold_get (w T : ℚ) (hT : 0 < T) :
    ∀ (contents : List JjContent) (s : ElementMap) (x : Element),
      (groundContentsFold w T s contents).get x =
        s.get x +
          ((contents.filter (fun ct => elementOfName ct.fiveCircle == some x)).map
            (fun ct => w * ct.rate / T)).sum := by
  intro contents
  induction contents with
  | nil => intro s x; simp [groundContentsFold]
  | cons ct cs ih =>
    intro s x
    have hstep : groundContentsFold w T s (ct :: cs) =
        groundContentsFold w T
          (match elementOfName ct.fiveCircle with
           | some e => if 0 < T then s.add e (w * (ct.rate / T)) else s
           | none => s) cs := by
      simp [groundContentsFold]
    rw [hstep]
    cases h1 : elementOfName ct.fiveCircle with
    | none =>
      rw [ih]
      simp [h1]
    | some e =>
      dsimp only
      rw [if_pos hT, ih]
      by_cases hx : e = x
      · subst hx
        simp [h1, ElementMap.get_add, mul_div_assoc]
        ring
      · simp [h1, hx, ElementMap.get_add, Ne.symm hx]

/-- One branch-loop iteration adds exactly the spec's branch points,
provided every branch of the table has a positive total rate. -/
theorem groundStep_get (g : String → Option (List JjContent)) (m : Bool)
    (s : ElementMap) (c : Option String) (x : Element)
    (hrate : ∀ ch cs, g ch = some cs → 0 < (cs.map (fun ct => ct.rate)).sum) :
    (groundStep g m s c).get x = s.get x + specBranchPoints g m c x := by
  cases c with
  | none => simp [groundStep, specBranchPoints]
  | some ch =>
    cases h1 : g ch with
    | none => simp [groundStep, specBranchPoints, h1]
    | some contents =>
      have hT := hrate ch contents h1
      have hw : groundBaseScore + (if m then monthBonusScore else 0) =
          35 / 2 + (if m then 21 else 0) := by
        cases m <;> norm_num [groundBaseScore, monthBonusScore]
      simp only [groundStep, specBranchPoints, h1]
      rw [groundContentsFold_get _ _ hT, hw]

/-- C7 -- The Elemental Scorer's weight model matches the spec's closed
form: each present stem adds exactly 7.5 points to its mapped element (no
redistribution), and each present branch distributes exactly 17.5 points —
plus 21 = 0.3 × 70 extra for the month branch — across its hidden-stem
sub-components in proportion to their relative rates
(`branch_weight * rate / sum_of_rates`).  The tables are parameters (the
`saju_data` module is absent from the snapshot); the branch table is
assumed to carry positive total rates, as relative rates are. -/
theorem scorer_matches_spec_weight_model
    (tenStar : String → Option (String → Option String))
    (g : String → Option (List JjContent)) (p : PillarSet) (raw : ElementMap)
    (ds : String) (tsd : String → Option String)
    (hds : p.day_sky = some ds)
    (htsd : tenStar ds = some tsd)
    (hraw : rawOhengScores tenStar (some g) p = Except.ok raw)
    (hrate : ∀ ch cs, g ch = some cs → 0 < (cs.map (fun ct => ct.rate)).sum) :
    ∀ e, raw.get e = specWeightScores tsd g p e := by
  intro e
  unfold rawOhengScores at hraw
  rw [hds] at hraw
  dsimp only at hraw
  rw [htsd] at hraw
  dsimp only at hraw
  injection hraw with hraw
  subst hraw
  rw [groundStep_get g false _ p.time_ground e hrate,
    groundStep_get g false _ p.day_ground e hrate,
    groundStep_get g true _ p.month_ground e hrate,
    groundStep_get g false _ p.year_ground e hrate]
  have hsky : ([p.year_sky, p.month_sky, some ds, p.time_sky].foldl
      (skyStep tsd) ElementMap.zero).get e =
      specStemPoints tsd p.year_sky e + specStemPoints tsd p.month_sky e +
      specStemPoints tsd (some ds) e + specStemPoints tsd p.time_sky e := by
    simp only [List.foldl_cons, List.foldl_nil, skyStep_get, ElementMap.get_zero]
    ring
  rw [hsky]
  unfold specWeightScores
  rw [hds]

/-- A one-stem ten-star table used by the scorer witnesses: every stem
character maps to 목(木).  Modelled from the spec's stem→element mapping
shape. -/
def fixtureTenStar : String → Option (String → Option String) :=
  fun _ => some (fun _ => some "목(木)")

/-- A one-branch hidden-stem table: the branch 자 holds a single
sub-component 수(水) with rate 10.  Modelled from the spec's hidden-stem
table shape. -/
def fixtureJijangan : String → Option (List JjContent) :=
  fun ch => if ch = "자" then some [{ fiveCircle := "수(水)", rate := 10 }] else none

/-- A pillar set with day-stem 갑 and month-branch 자 only. -/
def fixturePillars : PillarSet :=
  { year_sky := none, month_sky := none, day_sky := some "갑", time_sky := none
    year_ground := none, month_ground := some "자", day_ground := none
    time_ground := none }

/-- C7 witness: with the fixture tables, the raw score of 수(水) — fed by
the month branch 자 — equals the spec's closed form (17.5 + 21 points). -/
theorem scorer_matches_spec_weight_model_witness :
    (ElementMap.mk (15 / 2) 0 0 0 (77 / 2)).get Element.water =
      specWeightScores (fun _ => some "목(木)") fixtureJijangan fixturePillars
        Element.water := by
  have hraw : rawOhengScores fixtureTenStar (some fixtureJijangan) fixturePillars =
      Except.ok (ElementMap.mk (15 / 2) 0 0 0 (77 / 2)) := by
    have hj : fixtureJijangan "자" = some [{ fiveCircle := "수(水)", rate := 10 }] := by
      norm_num [fixtureJijangan]
    have hW : elementOfName "수(水)" = some Element.water := by decide
    have hM : elementOfName "목(木)" = some Element.wood := by decide
    norm_num [rawOhengScores, fixturePillars, fixtureTenStar, skyStep, groundStep,
      groundContentsFold, hj, hW, hM,
      ElementMap.zero, ElementMap.add, skyBaseScore, groundBaseScore, monthBonusScore]
  have hrate : ∀ ch cs, fixtureJijangan ch = some cs →
      0 < (cs.map (fun ct => ct.rate)).sum := by
    intro ch cs hc
    by_cases h : ch = "자"
    · rw [h] at hc
      have : cs = [{ fiveCircle := "수(水)", rate := 10 }] := by
        simpa [fixtureJijangan] using hc.symm
      subst this
      norm_num
    · simp [fixtureJijangan, h] at hc
  exact scorer_matches_spec_weight_model fixtureTenStar fixtureJijangan
    fixturePillars (ElementMap.mk (15 / 2) 0 0 0 (77 / 2)) "갑"
    (fun _ => some "목(木)") rfl rfl hraw hrate Element.water

/-- Rounding to one decimal keeps non-negative values non-negative. -/
theorem roundTo1_nonneg (x : ℚ) (h : 0 ≤ x) : 0 ≤ roundTo1 x := by
  unfold roundTo1
  have h1 : (0 : ℤ) ≤ round (x * 10) := by
    rw [round_eq]
    apply Int.floor_nonneg.mpr
    linarith
  have h2 : (0 : ℚ) ≤ ((round (x * 10) : ℤ) : ℚ) := by exact_mod_cast h1
  exact div_nonneg h2 (by norm_num)

/-- Rounding to one decimal moves a value by at most 1/20. -/
theorem abs_roundTo1_sub_le (x : ℚ) : |roundTo1 x - x| ≤ 1 / 20 := by
  unfold roundTo1
  have h := abs_sub_round (x * 10)
  have h' : |((round (x * 10) : ℤ) : ℚ) - x * 10| ≤ 1 / 2 := by
    rw [abs_sub_comm]
    exact h
  have heq : ((round (x * 10) : ℤ) : ℚ) / 10 - x =
      (((round (x * 10) : ℤ) : ℚ) - x * 10) / 10 := by ring
  have h10 : |(10 : ℚ)| = 10 := by norm_num
  rw [heq, abs_div, h10]
  linarith

/-- A stem's spec contribution is never negative. -/
theorem specStemPoints_nonneg (tsd : String → Option String) (c : Option String)
    (x : Element) : 0 ≤ specStemPoints tsd c x := by
  cases c with
  | none => simp [specStemPoints]
  | some ch =>
    cases h : (tsd ch).bind elementOfName with
    | none => simp [specStemPoints, h]
    | some e2 =>
      simp only [specStemPoints, h]
      split <;> norm_num

/-- The hidden-stem loop preserves pointwise non-negativity when the branch
weight and all rates are non-negative. -/
theorem groundContentsFold_nonneg (w T : ℚ) (hw : 0 ≤ w) :
    ∀ (l : List JjContent) (s : ElementMap),
      (∀ ct ∈ l, 0 ≤ ct.rate) → (∀ x, 0 ≤ s.get x) →
      ∀ x, 0 ≤ (groundContentsFold w T s l).get x := by
  intro l
  induction l with
  | nil =>
    intro s _ hs x
    simpa [groundContentsFold] using hs x
  | cons ct cs ih =>
    intro s hr hs x
    have hstep : groundContentsFold w T s (ct :: cs) =
        groundContentsFold w T
          (match elementOfName ct.fiveCircle with
           | some e => if 0 < T then s.add e (w * (ct.rate / T)) else s
           | none => s) cs := by
      simp [groundContentsFold]
    rw [hstep]
    apply ih
    · intro ct' h'
      exact hr ct' (List.mem_cons_of_mem _ h')
    · intro y
      cases h1 : elementOfName ct.fiveCircle with
      | none => exact hs y
      | some e =>
        dsimp only
        by_cases hT : 0 < T
        · rw [if_pos hT, ElementMap.get_add]
          split
          · exact add_nonneg (hs y)
              (mul_nonneg hw (div_nonneg (hr ct (List.mem_cons_self ct cs)) (le_of_lt hT)))
          · exact hs y
        · rw [if_neg hT]
          exact hs y

/-- One branch-loop iteration preserves pointwise non-negativity when every
rate of the branch table is non-negative. -/
theorem groundStep_nonneg (g : String → Option (List JjContent)) (m : Bool)
    (s : ElementMap) (c : Option String)
    (hr : ∀ ch cs, g ch = some cs → ∀ ct ∈ cs, 0 ≤ ct.rate)
    (hs : ∀ x, 0 ≤ s.get x) :
    ∀ x, 0 ≤ (groundStep g m s c).get x := by
  intro x
  cases c with
  | none => simpa [groundStep] using hs x
  | some ch =>
    cases h1 : g ch with
    | none => simpa [groundStep, h1] using hs x
    | some contents =>
      have hw : (0 : ℚ) ≤ groundBaseScore + (if m then monthBonusScore else 0) := by
        cases m <;> norm_num [groundBaseScore, monthBonusScore]
      simp only [groundStep, h1]
      exact groundContentsFold_nonneg _ _ hw contents s (hr ch contents h1) hs x

/-- C6 -- For every pillar set that scores successfully (day-stem present,
tables available) with at least one pillar contributing mass (positive raw
total), the Elemental Scorer returns five non-negative values whose sum is
100 within an aggregate rounding drift of at most 0.5 (in fact 0.25: five
values each rounded by at most 1/20).  Branch rates are assumed
non-negative, as the spec's relative rates are. -/
theorem scorer_nonneg_and_sums_to_100
    (tenStar : String → Option (String → Option String))
    (jj? : Option (String → Option (List JjContent))) (p : PillarSet)
    (raw : ElementMap)
    (hraw : rawOhengScores tenStar jj? p = Except.ok raw)
    (hrates : ∀ g ch cs, jj? = some g → g ch = some cs → ∀ ct ∈ cs, 0 ≤ ct.rate)
    (hpos : 0 < raw.total) :
    calculate_oheng_score tenStar jj? p = Except.ok (normalizeOhengScores raw) ∧
    (∀ e, 0 ≤ (normalizeOhengScores raw).get e) ∧
    |(normalizeOhengScores raw).total - 100| ≤ 1 / 2 := by
  have hcalc : calculate_oheng_score tenStar jj? p =
      Except.ok (normalizeOhengScores raw) := by
    unfold calculate_oheng_score
    rw [hraw]
    rfl
  have hnn : ∀ x, 0 ≤ raw.get x := by
    unfold rawOhengScores at hraw
    cases hds : p.day_sky with
    | none =>
      rw [hds] at hraw
      cases hraw
    | some ds =>
      rw [hds] at hraw
      dsimp only at hraw
      cases htsd : tenStar ds with
      | none =>
        rw [htsd] at hraw
        cases jj? <;> dsimp only at hraw <;> cases hraw
      | some tsd =>
        cases jj? with
        | none =>
          rw [htsd] at hraw
          dsimp only at hraw
          cases hraw
        | some g =>
          rw [htsd] at hraw
          dsimp only at hraw
          injection hraw with hraw
          subst hraw
          have hr : ∀ ch cs, g ch = some cs → ∀ ct ∈ cs, 0 ≤ ct.rate :=
            fun ch cs h => hrates g ch cs rfl h
          have hsky : ∀ x, 0 ≤
              ([p.year_sky, p.month_sky, some ds, p.time_sky].foldl
                (skyStep tsd) ElementMap.zero).get x := by
            intro x
            simp only [List.foldl_cons, List.foldl_nil, skyStep_get,
              ElementMap.get_zero]
            have n1 := specStemPoints_nonneg tsd p.year_sky x
            have n2 := specStemPoints_nonneg tsd p.month_sky x
            have n3 := specStemPoints_nonneg tsd (some ds) x
            have n4 := specStemPoints_nonneg tsd p.time_sky x
            linarith
          have h1 := groundStep_nonneg g false _ p.year_ground hr hsky
          have h2 := groundStep_nonneg g true _ p.month_ground hr h1
          have h3 := groundStep_nonneg g false _ p.day_ground hr h2
          exact groundStep_nonneg g false _ p.time_ground hr h3
  have hTnz : raw.total ≠ 0 := ne_of_gt hpos
  have hnorm : normalizeOhengScores raw =
      raw.mapQ (fun v => roundTo1 (v / raw.total * 100)) := by
    unfold normalizeOhengScores
    rw [if_neg hTnz]
  refine ⟨hcalc, ?_, ?_⟩
  · intro e
    rw [hnorm, ElementMap.get_mapQ]
    exact roundTo1_nonneg _
      (mul_nonneg (div_nonneg (hnn e) (le_of_lt hpos)) (by norm_num))
  · have hT' : raw.wood + raw.fire + raw.earth + raw.metal + raw.water ≠ 0 := hTnz
    have hsum : raw.wood / raw.total * 100 + raw.fire / raw.total * 100 +
        raw.earth / raw.total * 100 + raw.metal / raw.total * 100 +
        raw.water / raw.total * 100 = 100 := by
      unfold ElementMap.total
      field_simp
      ring
    have htot : (normalizeOhengScores raw).total =
        roundTo1 (raw.wood / raw.total * 100) + roundTo1 (raw.fire / raw.total * 100) +
        roundTo1 (raw.earth / raw.total * 100) + roundTo1 (raw.metal / raw.total * 100) +
        roundTo1 (raw.water / raw.total * 100) := by
      rw [hnorm]
      rfl
    have b1 := abs_le.mp (abs_roundTo1_sub_le (raw.wood / raw.total * 100))
    have b2 := abs_le.mp (abs_roundTo1_sub_le (raw.fire / raw.total * 100))
    have b3 := abs_le.mp (abs_roundTo1_sub_le (raw.earth / raw.total * 100))
    have b4 := abs_le.mp (abs_roundTo1_sub_le (raw.metal / raw.total * 100))
    have b5 := abs_le.mp (abs_roundTo1_sub_le (raw.water / raw.total * 100))
    rw [htot, abs_le]
    constructor <;> linarith [b1.1, b1.2, b2.1, b2.2, b3.1, b3.2, b4.1, b4.2, b5.1, b5.2]

/-- C6 witness: the fixture pillar set (day-stem plus month branch) scores
successfully into non-negative values summing to 100 within 0.5. -/
theorem scorer_nonneg_and_sums_to_100_witness :
    calculate_oheng_score fixtureTenStar (some fixtureJijangan) fixturePillars =
      Except.ok (normalizeOhengScores (ElementMap.mk (15 / 2) 0 0 0 (77 / 2))) ∧
    0 ≤ (normalizeOhengScores (ElementMap.mk (15 / 2) 0 0 0 (77 / 2))).get
        Element.water ∧
    |(normalizeOhengScores (ElementMap.mk (15 / 2) 0 0 0 (77 / 2))).total - 100| ≤
      1 / 2 := by
  have hraw : rawOhengScores fixtureTenStar (some fixtureJijangan) fixturePillars =
      Except.ok (ElementMap.mk (15 / 2) 0 0 0 (77 / 2)) := by
    have hj : fixtureJijangan "자" = some [{ fiveCircle := "수(水)", rate := 10 }] := by
      norm_num [fixtureJijangan]
    have hW : elementOfName "수(水)" = some Element.water := by decide
    have hM : elementOfName "목(木)" = some Element.wood := by decide
    norm_num [rawOhengScores, fixturePillars, fixtureTenStar, skyStep, groundStep,
      groundContentsFold, hj, hW, hM,
      ElementMap.zero, ElementMap.add, skyBaseScore, groundBaseScore, monthBonusScore]
  have hrates : ∀ (g : String → Option (List JjContent)) (ch : String)
      (cs : List JjContent), some fixtureJijangan = some g → g ch = some cs →
      ∀ ct ∈ cs, 0 ≤ ct.rate := by
    intro g ch cs hg hc ct hct
    injection hg with hg
    subst hg
    by_cases h : ch = "자"
    · rw [h] at hc
      have hcs : cs = [{ fiveCircle := "수(水)", rate := 10 }] := by
        simpa [fixtureJijangan] using hc.symm
      subst hcs
      simp at hct
      rw [hct]
      norm_num
    · simp [fixtureJijangan, h] at hc
  have hpos : 0 < (ElementMap.mk (15 / 2) 0 0 0 (77 / 2)).total := by
    norm_num [ElementMap.total]
  have h := scorer_nonneg_and_sums_to_100 fixtureTenStar (some fixtureJijangan)
    fixturePillars (ElementMap.mk (15 / 2) 0 0 0 (77 / 2)) hraw hrates hpos
  exact ⟨h.1, h.2.1 Element.water, h.2.2⟩

/-- A user row with a perfectly even stored base profile (all 20.0). -/
def fixtureBalancedUser : UserOheng :=
  { oheng_wood := some 20, oheng_fire := some 20, oheng_earth := some 20
    oheng_metal := some 20, oheng_water := some 20, day_sky := some "갑" }

/-- A today-row whose day-stem 갑 and day-branch 인 both govern 목(木). -/
def fixtureWoodManse : Manse :=
  { solarDate := 0, lunarDate := 0, seasonStartTime := none, leapMonth := false
    yearSky := "을", yearGround := "축", monthSky := "정", monthGround := "묘"
    daySky := "갑", dayGround := "인" }

/-- C3 -- The claim predicts the daily adjuster re-normalizes and rounds to
one decimal place like the Elemental Scorer; on the code the final
comprehension uses `round(..., 2)`: with base 20/20/20/20/20 and both of
today's characters mapping to 목(木), the returned 목(木) value is
42.86 (two decimals), not the 42.9 the one-decimal rule would give. -/
theorem daily_adjust_rounding_differs_from_scorer :
    calculate_today_saju_iljin get_five_circle_from_char fixtureBalancedUser
        [fixtureWoodManse] 0 =
      Except.ok (ElementMap.mk (2143 / 50) (1429 / 100) (1429 / 100) (1429 / 100)
        (1429 / 100)) ∧
    (2143 : ℚ) / 50 ≠ roundTo1 ((20 + 20 + 20) / 140 * 100) := by
  constructor
  · have hg1 : get_five_circle_from_char "갑" = some "목(木)" := by decide
    have hg2 : get_five_circle_from_char "인" = some "목(木)" := by decide
    have hM : elementOfName "목(木)" = some Element.wood := by decide
    have hf : List.find? (fun r => r.solarDate == (0 : Int)) [fixtureWoodManse] =
        some fixtureWoodManse := by decide
    norm_num [calculate_today_saju_iljin, fixtureBalancedUser, fixtureWoodManse,
      UserOheng.currentScores, boostForChar, hg1, hg2, hM, hf, ElementMap.add,
      ElementMap.total, ElementMap.mapQ, dailySkyWeight, dailyGroundWeight,
      roundTo2, round_eq]
    intro h
    exact absurd h (by simp)
  · norm_num [roundTo1, round_eq]

/-- Step 3 of `calculate_today_saju_iljin`: the stored base scores with
today's stem and branch weight boosts applied. -/
def dailyBoostedScores (fc : String → Option String) (u : UserOheng)
    (m : Manse) : ElementMap :=
  boostForChar fc (boostForChar fc u.currentScores m.daySky dailySkyWeight)
    m.dayGround dailyGroundWeight

/-- C3 (amended) -- Whenever the Daily Adjustment Engine succeeds, the five
returned values are the weight-boosted scores re-normalized to sum to 100 —
the pre-rounding shares sum to exactly 100 — but rounded to TWO decimal
places (`round(..., 2)`), not the one-decimal rule of the Elemental
Scorer's normalization. -/
theorem daily_adjust_renormalized_two_decimals
    (fc : String → Option String) (u : UserOheng) (db : List Manse)
    (today : Int) (f : ElementMap) (m : Manse)
    (hfind : db.find? (fun r => r.solarDate == today) = some m)
    (hok : calculate_today_saju_iljin fc u db today = Except.ok f) :
    f = (dailyBoostedScores fc u m).mapQ
        (fun v => roundTo2 (v / (dailyBoostedScores fc u m).total * 100)) ∧
    (dailyBoostedScores fc u m).total ≠ 0 ∧
    ((dailyBoostedScores fc u m).mapQ
        (fun v => v / (dailyBoostedScores fc u m).total * 100)).total = 100 := by
  unfold calculate_today_saju_iljin at hok
  unfold dailyBoostedScores
  split at hok
  · cases hok
  · cases hds : u.day_sky with
    | none =>
      rw [hds] at hok
      cases hok
    | some ds =>
      rw [hds] at hok
      dsimp only at hok
      rw [hfind] at hok
      dsimp only at hok
      by_cases hz : (boostForChar fc (boostForChar fc u.currentScores m.daySky
          dailySkyWeight) m.dayGround dailyGroundWeight).total = 0
      · rw [if_pos hz] at hok
        cases hok
      · rw [if_neg hz] at hok
        injection hok with hok
        subst hok
        refine ⟨rfl, hz, ?_⟩
        simp only [ElementMap.mapQ, ElementMap.total] at hz ⊢
        field_simp
        ring

/-- C3 witness: the balanced fixture user under the wood today-row yields
exactly the two-decimal re-normalization of the boosted scores. -/
theorem daily_adjust_renormalized_two_decimals_witness :
    ElementMap.mk (2143 / 50) (1429 / 100) (1429 / 100) (1429 / 100) (1429 / 100) =
      (dailyBoostedScores get_five_circle_from_char fixtureBalancedUser
          fixtureWoodManse).mapQ
        (fun v => roundTo2 (v / (dailyBoostedScores get_five_circle_from_char
          fixtureBalancedUser fixtureWoodManse).total * 100)) ∧
    (dailyBoostedScores get_five_circle_from_char fixtureBalancedUser
        fixtureWoodManse).total ≠ 0 := by
  have hfind : List.find? (fun r => r.solarDate == (0 : Int)) [fixtureWoodManse] =
      some fixtureWoodManse := by decide
  have hok : calculate_today_saju_iljin get_five_circle_from_char
      fixtureBalancedUser [fixtureWoodManse] 0 =
      Except.ok (ElementMap.mk (2143 / 50) (1429 / 100) (1429 / 100) (1429 / 100)
        (1429 / 100)) := by
    have hg1 : get_five_circle_from_char "갑" = some "목(木)" := by decide
    have hg2 : get_five_circle_from_char "인" = some "목(木)" := by decide
    have hM : elementOfName "목(木)" = some Element.wood := by decide
    norm_num [calculate_today_saju_iljin, fixtureBalancedUser, fixtureWoodManse,
      UserOheng.currentScores, boostForChar, hg1, hg2, hM, hfind, ElementMap.add,
      ElementMap.total, ElementMap.mapQ, dailySkyWeight, dailyGroundWeight,
      roundTo2, round_eq]
    intro h
    exact absurd h (by simp)
  have h := daily_adjust_renormalized_two_decimals get_five_circle_from_char
    fixtureBalancedUser [fixtureWoodManse] 0
    (ElementMap.mk (2143 / 50) (1429 / 100) (1429 / 100) (1429 / 100) (1429 / 100))
    fixtureWoodManse hfind hok
  exact ⟨h.1, h.2.1⟩
